import Mathlib

/-!
Verification of the HTTP execution and matching pipeline of
`pkg/executor/executer_http.go`.

The Go source is shallowly embedded: each relevant function of the file is
translated into a Lean definition that follows the Go control flow line by
line.  External collaborators that the file only calls (request compilation,
the matcher/extractor predicate implementations, `url.Parse`, the SOCKS5
dialer constructor, `headersToString`) are abstracted as function parameters
or as fields carrying their result, exactly as the spec's scope section
prescribes.  Go pointers are modelled as `Option`; a field assignment through
a `none` pointer is a crash.  Go slices are Lean lists; `append` is `++`.
-/

namespace Executor

/-- The response part a matcher or extractor inspects (`matchers.AllPart`,
`matchers.HeaderPart`, body otherwise). -/
inductive Part where
  | body
  | header
  | all
deriving DecidableEq

/-- The matcher combination condition (`matchers.ANDCondition` /
`matchers.ORCondition`), as returned by `GetMatchersCondition`. -/
inductive Condition where
  | ANDCondition
  | ORCondition
deriving DecidableEq

/-- An HTTP response as the evaluator consumes it.  `headerText` carries the
text that the repository's header-to-string conversion would produce for this
response's header map (the conversion itself lives outside this file; only
its invocation count and its value matter here). -/
structure Response where
  statusCode : Nat
  headerText : String

/-- Modelled from the spec: `headersToString` (defined elsewhere in the
repository) converts the response header map into one string.  The text it
would produce is carried on the response, so the conversion is a projection;
the execution loop under verification decides when it is invoked. -/
def headersToString (resp : Response) : String :=
  resp.headerText

/-- `matchers.Matcher`: kind, optional target filter (empty string when
unset), inspected part, and the accumulated calibration observations.
`matchFn` abstracts the `Match(resp, body, headers)` predicate, whose
implementation is out of scope per the spec. -/
structure Matcher where
  type_ : String
  target : String
  part : Part
  size : List Nat
  status : List Nat
  matchFn : Response → String → String → Bool

/-- `extractors.Extractor`: inspected part plus the abstract
`Extract(body, headers)` rule producing finitely many strings in order. -/
structure Extractor where
  part : Part
  extractFn : String → String → List String

/-- One `writeOutputHTTP` call: either `(req, matcher, nil)` from the OR
branch of the matcher loop, or `(req, nil, extractorResults)` from the final
consolidated write. -/
inductive Emission where
  | matched (m : Matcher)
  | final (results : List String)

/-- Whether an emission is the consolidated final write. -/
def isFinal : Emission → Bool
  | Emission.final _ => true
  | Emission.matched _ => false

/-- Whether some consolidated final write occurs in an emission list. -/
def hasFinal (es : List Emission) : Bool :=
  es.any isFinal

/-- The mutable state of one iteration of `ExecuteHTTP`'s main loop: the
lazily built `headers` string (initially empty), the number of
`headersToString` invocations so far, and the ordered `writeOutputHTTP`
calls. -/
structure EvalState where
  headers : String
  headerCalls : Nat
  emissions : List Emission

/-- The state at the top of each main-loop iteration (`var headers string`,
no output written yet for this response). -/
def initState : EvalState :=
  { headers := "", headerCalls := 0, emissions := [] }

/-- Lines 163-164 and 187-188: the header-build statement shared by the
matcher and extractor loops.  The test is the Go expression
`part == AllPart || part == HeaderPart && headers == ""`, whose `&&` binds
tighter than `||`; when it holds, `headers = headersToString(resp.Header)`
runs (one more conversion). -/
def buildHeaders (p : Part) (resp : Response) (st : EvalState) : EvalState :=
  if p = Part.all ∨ (p = Part.header ∧ st.headers = "") then
    { st with headers := headersToString resp, headerCalls := st.headerCalls + 1 }
  else st

/-- Lines 157-180 of `executer_http.go`: the matcher loop.  Returns the state
together with `true` when a failing matcher under the AND condition executed
`continue mainLoop` (aborting this response). -/
def runMatchers (url : String) (cond : Condition) (numExtractors : Nat)
    (resp : Response) (body : String) :
    List Matcher → EvalState → EvalState × Bool
  | [], st => (st, false)
  | matcher :: rest, st =>
    if matcher.target ≠ "" ∧ matcher.target ≠ url then
      runMatchers url cond numExtractors resp body rest st
    else
      let st := buildHeaders matcher.part resp st
      if ¬ matcher.matchFn resp body st.headers then
        if cond = Condition.ANDCondition then
          (st, true)
        else
          runMatchers url cond numExtractors resp body rest st
      else
        let st :=
          if cond = Condition.ORCondition ∧ numExtractors = 0 then
            { st with emissions := st.emissions ++ [Emission.matched matcher] }
          else st
        runMatchers url cond numExtractors resp body rest st

/-- Lines 184-193: the extractor loop, threading the same `headers` variable
and appending every extracted string to `extractorResults` in order.  The
header-build statement repeats the matcher loop's. -/
def runExtractors (resp : Response) (body : String) :
    List Extractor → EvalState → List String → EvalState × List String
  | [], st, acc => (st, acc)
  | extractor :: rest, st, acc =>
    let st := buildHeaders extractor.part resp st
    runExtractors resp body rest st (acc ++ extractor.extractFn body st.headers)

/-- Lines 155-199: evaluation of one response inside `ExecuteHTTP`'s main
loop.  An AND short-circuit (`continue mainLoop`) ends the iteration with the
state as is; otherwise the extractors run and the final consolidated write
happens when `len(Extractors) > 0 || matcherCondition == ANDCondition`. -/
def evalResponse (url : String) (cond : Condition) (ms : List Matcher)
    (exs : List Extractor) (resp : Response) (body : String) : EvalState :=
  match runMatchers url cond exs.length resp body ms initState with
  | (st, true) => st
  | (st, false) =>
    match runExtractors resp body exs st [] with
    | (st2, extractorResults) =>
      if exs.length > 0 ∨ cond = Condition.ANDCondition then
        { st2 with emissions := st2.emissions ++ [Emission.final extractorResults] }
      else st2

/-- Spec-side reading of section 4.5 and the first AND property of section 8:
every applicable matcher (target filter unset or equal to the current URL)
returns true on `(response, body, headers)`, where `headers` is the header
text once some applicable matcher up to this point requested the header or
all part, and empty before that. -/
def specAllApplicablePass (url : String) (resp : Response) (body : String) :
    List Matcher → String → Bool
  | [], _ => true
  | m :: rest, hs =>
    if m.target = "" ∨ m.target = url then
      let hs := if m.part = Part.header ∨ m.part = Part.all then headersToString resp else hs
      m.matchFn resp body hs && specAllApplicablePass url resp body rest hs
    else
      specAllApplicablePass url resp body rest hs

/-- Spec-side reading of the OR property of sections 4.5 and 8: one emission,
with the matcher as cause, for every applicable matcher that returns true,
in declaration order, with the same lazy header threading. -/
def specOrEmissions (url : String) (resp : Response) (body : String) :
    List Matcher → String → List Emission
  | [], _ => []
  | m :: rest, hs =>
    if m.target = "" ∨ m.target = url then
      let hs := if m.part = Part.header ∨ m.part = Part.all then headersToString resp else hs
      if m.matchFn resp body hs then
        Emission.matched m :: specOrEmissions url resp body rest hs
      else
        specOrEmissions url resp body rest hs
    else
      specOrEmissions url resp body rest hs

/-- The possible verdicts of the redirect-check callback: follow the redirect
(`return nil`) or stop and use the last response
(`return http.ErrUseLastResponse`). -/
inductive RedirectDecision where
  | follow
  | useLastResponse
deriving DecidableEq

/-- Lines 255-271: the closure returned by `makeCheckRedirectFunc`, a pure
function of the captured flags and `len(requests)`, the cumulative number of
requests made in the redirect chain so far. -/
def checkRedirect (followRedirects : Bool) (maxRedirects : Int)
    (requestsLen : Nat) : RedirectDecision :=
  if ¬ followRedirects then
    RedirectDecision.useLastResponse
  else if maxRedirects = 0 then
    if (requestsLen : Int) > 10 then RedirectDecision.useLastResponse
    else RedirectDecision.follow
  else if (requestsLen : Int) > maxRedirects then
    RedirectDecision.useLastResponse
  else
    RedirectDecision.follow

/-- Lines 108-112: `for _, size := range m.Size { if size == len(body) {
continue } }`.  The `continue` merely advances this inner loop, so the scan
computes nothing and has no effect on the subsequent append. -/
def duplicateSizeScan : List Nat → Nat → Unit
  | [], _ => ()
  | size :: rest, n =>
    if size = n then duplicateSizeScan rest n
    else duplicateSizeScan rest n

/-- Lines 104-115: after reading a calibration probe body, run the
duplicate-size scan and then append `len(body)` to `m.Size` and the status
code to `m.Status` unconditionally. -/
def recordObservation (m : Matcher) (bodyLen : Nat) (statusCode : Nat) : Matcher :=
  let _ := duplicateSizeScan m.size bodyLen
  { m with size := m.size ++ [bodyLen], status := m.status ++ [statusCode] }

/-- A compiled calibration probe request.  `MakeHTTPRequestForAutoConfigure`
is external, so a probe request is opaque apart from identity. -/
structure ProbeReq where
  pathToken : String
deriving DecidableEq

/-- A probe response: its body text and status code. -/
structure ProbeResp where
  respBody : String
  statusCode : Nat
deriving DecidableEq

set_option linter.unusedVariables false in
/-- Lines 74-78: `compiledConfigRequest, err := ...(URL, 16)` immediately
overwritten by `compiledConfigRequest, err = ...(URL, 32)`; only the second
result (and only its error) survives to the rest of the function. -/
def makeConfigRequests (compile : Nat → Except String (List ProbeReq)) :
    Except String (List ProbeReq) :=
  let compiledConfigRequest := compile 16
  let compiledConfigRequest := compile 32
  compiledConfigRequest

/-- Outcome of `ConfigureAutoType`: a nil-pointer dereference panic, an error
return, or the `nil` return. -/
inductive AutoResult where
  | crash
  | failed (msg : String)
  | ok
deriving DecidableEq

/-- Lines 83-84: `var m *matchers.Matcher` leaves `m` nil; `m.Target = URL`
assigns a field through that nil pointer.  Pointers are `Option`; assignment
through `none` is the crash. -/
def setTarget (p : Option Matcher) (url : String) : Except Unit Matcher :=
  match p with
  | none => Except.error ()
  | some m => Except.ok { m with target := url }

/-- Lines 87-116: the probe loop of the auto branch.  `doReq` abstracts
`httpClient.Do` followed by the full body read (a failure of either is the
wrapped request-level error).  Returns the error if any, the matcher after
its recorded observations, and the probes sent in order. -/
def probeLoop (doReq : ProbeReq → Except String ProbeResp) :
    Matcher → List ProbeReq → List ProbeReq →
    Option String × Matcher × List ProbeReq
  | m, [], sent => (none, m, sent)
  | m, req :: rest, sent =>
    match doReq req with
    | Except.error e =>
      (some ("could not make http request: " ++ e), m, sent ++ [req])
    | Except.ok resp =>
      probeLoop doReq (recordObservation m resp.respBody.length resp.statusCode)
        rest (sent ++ [req])

/-- Lines 80-118: the loop over `e.httpRequest.Matchers`.  Go's `range`
iterates over the snapshot taken at loop entry (`toVisit`) while appends land
in the live slice (`live`).  For each matcher of kind `auto` the code
performs the nil-pointer field assignment; the branch after it is translated
for completeness although `setTarget none` always crashes.  The appended
pointer would reflect the probe loop's later mutations, so the final matcher
value is what joins the live set. -/
def configLoop (url : String) (reqs : List ProbeReq)
    (doReq : ProbeReq → Except String ProbeResp) :
    List Matcher → List Matcher → List ProbeReq →
    AutoResult × List Matcher × List ProbeReq
  | [], live, sent => (AutoResult.ok, live, sent)
  | matcher :: rest, live, sent =>
    if matcher.type_ = "auto" then
      match setTarget none url with
      | Except.error _ => (AutoResult.crash, live, sent)
      | Except.ok m =>
        match probeLoop doReq m reqs sent with
        | (some e, mFinal, sent2) => (AutoResult.failed e, live ++ [mFinal], sent2)
        | (none, mFinal, sent2) =>
          configLoop url reqs doReq rest (live ++ [mFinal]) sent2
    else
      configLoop url reqs doReq rest live sent

/-- Lines 72-121: `ConfigureAutoType`.  `compile` abstracts
`MakeHTTPRequestForAutoConfigure(URL, n)`.  Returns the outcome, the final
matcher collection, and the probe requests actually issued. -/
def configureAutoType (url : String) (ms : List Matcher)
    (compile : Nat → Except String (List ProbeReq))
    (doReq : ProbeReq → Except String ProbeResp) :
    AutoResult × List Matcher × List ProbeReq :=
  match makeConfigRequests compile with
  | Except.error e =>
    (AutoResult.failed ("could not make auto configure http request: " ++ e), ms, [])
  | Except.ok reqs => configLoop url reqs doReq ms ms []

/-- A parsed SOCKS5 URL, abstracting the fields of `net/url.URL` that lines
229-241 read: `Hostname()`, `Port()`, and the embedded credentials. -/
structure SocksURLModel where
  hostname : String
  port : String
  user : String
  password : String
deriving DecidableEq

/-- The `proxy.Auth` value built from the parsed URL's user info. -/
structure SocksAuth where
  user : String
  password : String
deriving DecidableEq

/-- What the transport's dial function ends up being: the SOCKS5 dialer
(identified by an abstract tag) or the default direct dial. -/
inductive DialChoice where
  | socks (d : Nat)
  | direct
deriving DecidableEq

/-- Outcome of the SOCKS section of `makeHTTPClient`: either a nil-pointer
dereference (the parsed URL is nil and `socksURL.Hostname()` is evaluated) or
a transport using the given dial choice. -/
inductive DialSetup where
  | crash
  | uses (d : DialChoice)
deriving DecidableEq

/-- Lines 229-241 of `makeHTTPClient`, entered when `ProxySocksURL` is
nonempty.  `url.Parse` is external: `parsed` is its result, `none` on a parse
error.  `proxy.SOCKS5` is external: `socks5` takes the formatted
`host:port` address and the auth value, returning `none` exactly when dialer
construction fails.  The Go guards only the auth extraction with
`err == nil` and then evaluates `socksURL.Hostname()` unconditionally, so a
failed parse dereferences nil before `proxy.SOCKS5` is ever reached. -/
def configureSocksDial (parsed : Option SocksURLModel)
    (socks5 : String → Option SocksAuth → Option Nat) : DialSetup :=
  let proxyAuth : Option SocksAuth :=
    match parsed with
    | some u => some { user := u.user, password := u.password }
    | none => none
  match parsed with
  | none => DialSetup.crash
  | some u =>
    match socks5 (u.hostname ++ ":" ++ u.port) proxyAuth with
    | some d => DialSetup.uses (DialChoice.socks d)
    | none => DialSetup.uses DialChoice.direct

/-- C3: the redirect decision is a pure function of the flags and the
cumulative request count: with redirects disabled it always stops and uses
the last response; with redirects enabled and no configured maximum it stops
exactly when the chain exceeds 10 requests; with a nonzero configured maximum
it stops exactly when the chain's request count exceeds that maximum. -/
theorem checkRedirect_policy (maxRedirects : Int) (requestsLen : Nat) :
    checkRedirect false maxRedirects requestsLen = RedirectDecision.useLastResponse ∧
    (checkRedirect true 0 requestsLen = RedirectDecision.useLastResponse ↔
      requestsLen > 10) ∧
    (maxRedirects ≠ 0 →
      (checkRedirect true maxRedirects requestsLen = RedirectDecision.useLastResponse ↔
        (requestsLen : Int) > maxRedirects)) := by
  refine ⟨rfl, ?_, fun hm => ?_⟩
  · have h0 : checkRedirect true 0 requestsLen =
        if (requestsLen : Int) > 10 then RedirectDecision.useLastResponse
        else RedirectDecision.follow := rfl
    rw [h0]
    by_cases hgt : (requestsLen : Int) > 10
    · rw [if_pos hgt]
      have hn : requestsLen > 10 := by omega
      simp [hn]
    · rw [if_neg hgt]
      have hn : ¬ requestsLen > 10 := by omega
      simp [hn]
  · have h0 : checkRedirect true maxRedirects requestsLen =
        if (requestsLen : Int) > maxRedirects then RedirectDecision.useLastResponse
        else RedirectDecision.follow := by
      unfold checkRedirect
      rw [if_neg (by simp), if_neg hm]
    rw [h0]
    by_cases hgt : (requestsLen : Int) > maxRedirects
    · rw [if_pos hgt]
      simp [hgt]
    · rw [if_neg hgt]
      simp [hgt]

/-- Witness for C3 at concrete inputs: disabled redirects stop at once; the
default cap stops an 11-request chain; a configured cap of 3 stops a
4-request chain. -/
theorem checkRedirect_policy_witness :
    checkRedirect false 5 1 = RedirectDecision.useLastResponse ∧
    checkRedirect true 0 11 = RedirectDecision.useLastResponse ∧
    checkRedirect true 3 4 = RedirectDecision.useLastResponse :=
  ⟨(checkRedirect_policy 5 1).1,
   (checkRedirect_policy 0 11).2.1.mpr (by decide),
   ((checkRedirect_policy 3 4).2.2 (by decide)).mpr (by decide)⟩

/-- C6: at the failing input — calibration matcher with observed sizes `[5]`,
a probe whose body again has length 5 and status 404 — the recording step
appends the duplicate length anyway (`Size` becomes `[5, 5]`), because the
scan guarded by the comment `Don't add duplicate response sizes` is a no-op;
the duplicate suppression the claim (and the comment) describe does not
happen. -/
theorem duplicate_size_appended_despite_dedup_comment :
    recordObservation
      { type_ := "auto", target := "u", part := Part.body, size := [5],
        status := [200], matchFn := fun _ _ _ => true } 5 404 =
      { type_ := "auto", target := "u", part := Part.body, size := [5, 5],
        status := [200, 404], matchFn := fun _ _ _ => true } := rfl

/-- C7: the 16-token compilation is dead — the probe-request variable and its
error are overwritten by the 32-token compilation before use, so only the
32-token requests are ever iterated (first conjunct), and even a failing
16-token compilation is silently discarded (second conjunct). -/
theorem only_32_token_probe_requests_used :
    makeConfigRequests (fun n => Except.ok [ProbeReq.mk (toString n)]) =
      Except.ok [ProbeReq.mk "32"] ∧
    makeConfigRequests (fun n =>
        if n = 16 then Except.error "bad16"
        else Except.ok [ProbeReq.mk (toString n)]) =
      Except.ok [ProbeReq.mk "32"] :=
  ⟨rfl, rfl⟩

/-- C8: counterexample.  When the SOCKS5 proxy URL fails URL parsing (the
parse result is nil) the SOCKS section dereferences the nil URL while
formatting the dialer address, so client construction crashes instead of
falling back to direct dialing — regardless of how the dialer constructor
would behave. -/
theorem socks_parse_failure_crashes :
    configureSocksDial none (fun _ _ => none) = DialSetup.crash := rfl

/-- C8 (amended): a failed URL parse leads to the nil dereference, not to a
fallback; the silent fallback to direct dialing happens exactly when the URL
parses but SOCKS5 dialer construction fails, and a successfully constructed
dialer is installed as the transport's dial function. -/
theorem socks_dial_fallback_behavior (u : SocksURLModel)
    (socks5 : String → Option SocksAuth → Option Nat) :
    configureSocksDial none socks5 = DialSetup.crash ∧
    (socks5 (u.hostname ++ ":" ++ u.port)
        (some { user := u.user, password := u.password }) = none →
      configureSocksDial (some u) socks5 = DialSetup.uses DialChoice.direct) ∧
    (∀ d, socks5 (u.hostname ++ ":" ++ u.port)
        (some { user := u.user, password := u.password }) = some d →
      configureSocksDial (some u) socks5 = DialSetup.uses (DialChoice.socks d)) := by
  refine ⟨rfl, fun h => ?_, fun d h => ?_⟩
  · dsimp only [configureSocksDial]
    rw [h]
  · dsimp only [configureSocksDial]
    rw [h]

/-- Witness for C8 at concrete inputs: a nil parse result crashes, and a
parsed URL whose dialer construction fails falls back to direct dialing. -/
theorem socks_dial_fallback_witness :
    configureSocksDial none (fun _ _ => none) = DialSetup.crash ∧
    configureSocksDial (some { hostname := "h", port := "1080", user := "u", password := "p" })
        (fun _ _ => none) = DialSetup.uses DialChoice.direct :=
  ⟨(socks_dial_fallback_behavior
      { hostname := "h", port := "1080", user := "u", password := "p" }
      (fun _ _ => none)).1,
   (socks_dial_fallback_behavior
      { hostname := "h", port := "1080", user := "u", password := "p" }
      (fun _ _ => none)).2.1 rfl⟩

/-- `makeConfigRequests` keeps only the 32-token compilation. -/
lemma makeConfigRequests_eq (compile : Nat → Except String (List ProbeReq)) :
    makeConfigRequests compile = compile 32 := rfl

/-- The matcher loop of `ConfigureAutoType` crashes at the first matcher of
kind `auto`, leaving the live matcher set and the sent-probe list as they
were. -/
lemma configLoop_crash (url : String) (reqs : List ProbeReq)
    (doReq : ProbeReq → Except String ProbeResp) :
    ∀ (toVisit live : List Matcher) (sent : List ProbeReq),
      (∃ m ∈ toVisit, m.type_ = "auto") →
      configLoop url reqs doReq toVisit live sent = (AutoResult.crash, live, sent) := by
  intro toVisit
  induction toVisit with
  | nil =>
    intro live sent h
    exact absurd h (by simp)
  | cons matcher rest ih =>
    intro live sent h
    by_cases hauto : matcher.type_ = "auto"
    · unfold configLoop
      rw [if_pos hauto]
      rfl
    · unfold configLoop
      rw [if_neg hauto]
      refine ih live sent ?_
      rcases h with ⟨m, hm, hma⟩
      rcases List.mem_cons.mp hm with hm | hm
      · exact absurd hma (hm ▸ hauto)
      · exact ⟨m, hm, hma⟩

/-- The matcher loop of `ConfigureAutoType` is a pure pass over the snapshot
when no matcher is of kind `auto`: nothing sent, nothing changed. -/
lemma configLoop_noAuto (url : String) (reqs : List ProbeReq)
    (doReq : ProbeReq → Except String ProbeResp) :
    ∀ (toVisit live : List Matcher) (sent : List ProbeReq),
      (∀ m ∈ toVisit, m.type_ ≠ "auto") →
      configLoop url reqs doReq toVisit live sent = (AutoResult.ok, live, sent) := by
  intro toVisit
  induction toVisit with
  | nil =>
    intro live sent _
    rfl
  | cons matcher rest ih =>
    intro live sent h
    unfold configLoop
    rw [if_neg (h matcher (List.mem_cons_self matcher rest))]
    exact ih live sent (fun m hm => h m (List.mem_cons_of_mem matcher hm))

/-- C9: whenever the request spec contains a matcher of kind `auto` (and the
calibration compilation reaches the loop), `ConfigureAutoType` assigns the
target field through the uninitialized nil matcher pointer: the run is a nil
dereference crash, no probe is sent, and no allocated target-scoped matcher
is appended to the live matcher set. -/
theorem configureAutoType_nil_matcher_crash (url : String) (ms : List Matcher)
    (compile : Nat → Except String (List ProbeReq))
    (doReq : ProbeReq → Except String ProbeResp) (reqs : List ProbeReq)
    (hauto : ∃ m ∈ ms, m.type_ = "auto")
    (hc : compile 32 = Except.ok reqs) :
    configureAutoType url ms compile doReq = (AutoResult.crash, ms, []) := by
  unfold configureAutoType
  rw [makeConfigRequests_eq, hc]
  exact configLoop_crash url reqs doReq ms ms [] hauto

/-- Witness for C9: one concrete `auto` matcher, successful compilation — the
run crashes with the matcher set intact and no probe sent. -/
theorem configureAutoType_nil_matcher_crash_witness :
    configureAutoType "u"
      [{ type_ := "auto", target := "", part := Part.body, size := [],
         status := [], matchFn := fun _ _ _ => true }]
      (fun _ => Except.ok []) (fun _ => Except.error "down") =
    (AutoResult.crash,
      [{ type_ := "auto", target := "", part := Part.body, size := [],
         status := [], matchFn := fun _ _ _ => true }], []) :=
  configureAutoType_nil_matcher_crash "u" _ _ _ []
    ⟨_, List.mem_singleton.mpr rfl, rfl⟩ rfl

/-- C10: with no matcher of kind `auto` and a successful calibration
compilation, `ConfigureAutoType` sends no probe request, leaves the matcher
collection (every matcher and all its fields) unchanged, and returns nil. -/
theorem configureAutoType_no_auto_noop (url : String) (ms : List Matcher)
    (compile : Nat → Except String (List ProbeReq))
    (doReq : ProbeReq → Except String ProbeResp) (reqs : List ProbeReq)
    (hnone : ∀ m ∈ ms, m.type_ ≠ "auto")
    (hc : compile 32 = Except.ok reqs) :
    configureAutoType url ms compile doReq = (AutoResult.ok, ms, []) := by
  unfold configureAutoType
  rw [makeConfigRequests_eq, hc]
  exact configLoop_noAuto url reqs doReq ms ms [] hnone

/-- Witness for C10: one concrete non-`auto` matcher, successful compilation —
the run is a no-op returning nil. -/
theorem configureAutoType_no_auto_noop_witness :
    configureAutoType "u"
      [{ type_ := "word", target := "", part := Part.body, size := [],
         status := [], matchFn := fun _ _ _ => true }]
      (fun _ => Except.ok []) (fun _ => Except.error "down") =
    (AutoResult.ok,
      [{ type_ := "word", target := "", part := Part.body, size := [],
         status := [], matchFn := fun _ _ _ => true }], []) :=
  configureAutoType_no_auto_noop "u" _ _ _ []
    (by
      intro m hm
      rw [List.mem_singleton.mp hm]
      decide) rfl

/-- C4: counterexample.  With condition OR and one extractor configured that
produces no output at all, the final write still runs — `ExecuteHTTP` tests
`len(Extractors) > 0`, not whether extraction produced anything — so a
consolidated result with an empty extraction list is emitted where the claim
says no consolidated emission occurs. -/
theorem or_with_silent_extractors_still_emits :
    (evalResponse "u" Condition.ORCondition []
      [{ part := Part.body, extractFn := fun _ _ => [] }]
      { statusCode := 200, headerText := "" } "b").emissions =
      [Emission.final []] := rfl

/-- C5: counterexample.  Two matchers both requesting the `all` part against
the same response: because `&&` binds tighter than `||` in the header-build
test, the `all` case ignores the emptiness memo and `headersToString` is
invoked twice for one response, where the claim says at most once. -/
theorem headersToString_called_twice_for_all_part :
    (evalResponse "u" Condition.ANDCondition
      [{ type_ := "word", target := "", part := Part.all, size := [],
         status := [], matchFn := fun _ _ _ => true },
       { type_ := "word", target := "", part := Part.all, size := [],
         status := [], matchFn := fun _ _ _ => true }] []
      { statusCode := 200, headerText := "X" } "b").headerCalls = 2 := rfl

/-- The header-build step never touches the emission list. -/
lemma buildHeaders_emissions (p : Part) (resp : Response) (st : EvalState) :
    (buildHeaders p resp st).emissions = st.emissions := by
  unfold buildHeaders
  split_ifs <;> rfl

/-- The header-build step keeps the headers string in
`{"", headersToString resp}`. -/
lemma buildHeaders_inv (p : Part) (resp : Response) (st : EvalState)
    (h : st.headers = "" ∨ st.headers = headersToString resp) :
    (buildHeaders p resp st).headers = "" ∨
    (buildHeaders p resp st).headers = headersToString resp := by
  unfold buildHeaders
  split_ifs
  · exact Or.inr rfl
  · exact h

/-- Under the invariant, the headers value after the source's build step
(`all || (header && memo)`) coincides with the spec's lazy reading
(built as soon as the part is header or all). -/
lemma buildHeaders_headers_spec (p : Part) (resp : Response) (st : EvalState)
    (hinv : st.headers = "" ∨ st.headers = headersToString resp) :
    (buildHeaders p resp st).headers =
      (if p = Part.header ∨ p = Part.all then headersToString resp else st.headers) := by
  unfold buildHeaders
  split_ifs with h1 h2 <;> first | rfl | tauto

/-- A matcher whose target filter is set and differs from the URL is
skipped. -/
lemma runMatchers_skip {url : String} {cond : Condition} {n : Nat}
    {resp : Response} {body : String} {m : Matcher} {rest : List Matcher}
    {st : EvalState} (h : m.target ≠ "" ∧ m.target ≠ url) :
    runMatchers url cond n resp body (m :: rest) st =
      runMatchers url cond n resp body rest st := by
  conv_lhs => unfold runMatchers
  rw [if_pos h]

/-- An applicable matcher that fails under AND executes `continue mainLoop`:
the loop stops, aborted, with the state after the header-build step. -/
lemma runMatchers_fail_and {url : String} {n : Nat} {resp : Response}
    {body : String} {m : Matcher} {rest : List Matcher} {st : EvalState}
    (happ : ¬(m.target ≠ "" ∧ m.target ≠ url))
    (hm : m.matchFn resp body (buildHeaders m.part resp st).headers = false) :
    runMatchers url Condition.ANDCondition n resp body (m :: rest) st =
      (buildHeaders m.part resp st, true) := by
  unfold runMatchers
  rw [if_neg happ]
  simp [hm]

/-- An applicable matcher that fails under OR just moves to the next
matcher. -/
lemma runMatchers_fail_or {url : String} {n : Nat} {resp : Response}
    {body : String} {m : Matcher} {rest : List Matcher} {st : EvalState}
    (happ : ¬(m.target ≠ "" ∧ m.target ≠ url))
    (hm : m.matchFn resp body (buildHeaders m.part resp st).headers = false) :
    runMatchers url Condition.ORCondition n resp body (m :: rest) st =
      runMatchers url Condition.ORCondition n resp body rest
        (buildHeaders m.part resp st) := by
  conv_lhs => unfold runMatchers
  rw [if_neg happ]
  simp [hm]

/-- An applicable matcher that passes continues with the next matcher, after
emitting it as cause exactly when the condition is OR and no extractor is
configured. -/
lemma runMatchers_pass {url : String} {cond : Condition} {n : Nat}
    {resp : Response} {body : String} {m : Matcher} {rest : List Matcher}
    {st : EvalState} (happ : ¬(m.target ≠ "" ∧ m.target ≠ url))
    (hm : m.matchFn resp body (buildHeaders m.part resp st).headers = true) :
    runMatchers url cond n resp body (m :: rest) st =
      runMatchers url cond n resp body rest
        (if cond = Condition.ORCondition ∧ n = 0 then
          { buildHeaders m.part resp st with
              emissions := (buildHeaders m.part resp st).emissions ++
                [Emission.matched m] }
         else buildHeaders m.part resp st) := by
  conv_lhs => unfold runMatchers
  rw [if_neg happ]
  simp [hm]

/-- Unfolding of the spec-side AND predicate at a cons cell. -/
lemma specAllApplicablePass_cons (url : String) (resp : Response) (body : String)
    (m : Matcher) (rest : List Matcher) (hs : String) :
    specAllApplicablePass url resp body (m :: rest) hs =
      if m.target = "" ∨ m.target = url then
        (m.matchFn resp body
            (if m.part = Part.header ∨ m.part = Part.all then headersToString resp else hs) &&
          specAllApplicablePass url resp body rest
            (if m.part = Part.header ∨ m.part = Part.all then headersToString resp else hs))
      else specAllApplicablePass url resp body rest hs := rfl

/-- Unfolding of the spec-side OR emission list at a cons cell. -/
lemma specOrEmissions_cons (url : String) (resp : Response) (body : String)
    (m : Matcher) (rest : List Matcher) (hs : String) :
    specOrEmissions url resp body (m :: rest) hs =
      if m.target = "" ∨ m.target = url then
        (if m.matchFn resp body
            (if m.part = Part.header ∨ m.part = Part.all then headersToString resp else hs) then
          Emission.matched m ::
            specOrEmissions url resp body rest
              (if m.part = Part.header ∨ m.part = Part.all then headersToString resp else hs)
         else
          specOrEmissions url resp body rest
            (if m.part = Part.header ∨ m.part = Part.all then headersToString resp else hs))
      else specOrEmissions url resp body rest hs := rfl

/-- Under the AND condition the matcher loop never writes output, and it
aborts exactly when some applicable matcher fails on the lazily threaded
headers — the complement of the spec-side predicate. -/
lemma runMatchers_AND_spec (url : String) (n : Nat) (resp : Response)
    (body : String) :
    ∀ (ms : List Matcher) (st : EvalState),
      st.headers = "" ∨ st.headers = headersToString resp →
      (runMatchers url Condition.ANDCondition n resp body ms st).1.emissions =
        st.emissions ∧
      (runMatchers url Condition.ANDCondition n resp body ms st).2 =
        !(specAllApplicablePass url resp body ms st.headers) := by
  intro ms
  induction ms with
  | nil => exact fun st _ => ⟨rfl, rfl⟩
  | cons m rest ih =>
    intro st hinv
    by_cases happ : m.target = "" ∨ m.target = url
    · have hskip : ¬(m.target ≠ "" ∧ m.target ≠ url) := by tauto
      have hb := buildHeaders_headers_spec m.part resp st hinv
      have hbinv := buildHeaders_inv m.part resp st hinv
      rw [specAllApplicablePass_cons, if_pos happ, ← hb]
      cases hm : m.matchFn resp body (buildHeaders m.part resp st).headers with
      | false =>
        rw [runMatchers_fail_and hskip hm]
        exact ⟨buildHeaders_emissions m.part resp st, by simp [hm]⟩
      | true =>
        rw [runMatchers_pass hskip hm, if_neg (by simp)]
        have h2 := ih (buildHeaders m.part resp st) hbinv
        exact ⟨h2.1.trans (buildHeaders_emissions m.part resp st),
          by rw [h2.2]; simp⟩
    · have hskip : m.target ≠ "" ∧ m.target ≠ url := by tauto
      rw [runMatchers_skip hskip, specAllApplicablePass_cons, if_neg happ]
      exact ih st hinv

/-- Under the OR condition with no extractor configured, the matcher loop
never aborts and appends exactly the spec-side emission list: one emission
per applicable passing matcher, in order, with that matcher as cause. -/
lemma runMatchers_OR_spec (url : String) (resp : Response) (body : String) :
    ∀ (ms : List Matcher) (st : EvalState),
      st.headers = "" ∨ st.headers = headersToString resp →
      (runMatchers url Condition.ORCondition 0 resp body ms st).1.emissions =
        st.emissions ++ specOrEmissions url resp body ms st.headers ∧
      (runMatchers url Condition.ORCondition 0 resp body ms st).2 = false := by
  intro ms
  induction ms with
  | nil => exact fun st _ => ⟨by simp [runMatchers, specOrEmissions], rfl⟩
  | cons m rest ih =>
    intro st hinv
    by_cases happ : m.target = "" ∨ m.target = url
    · have hskip : ¬(m.target ≠ "" ∧ m.target ≠ url) := by tauto
      have hb := buildHeaders_headers_spec m.part resp st hinv
      have hbinv := buildHeaders_inv m.part resp st hinv
      rw [specOrEmissions_cons, if_pos happ, ← hb]
      cases hm : m.matchFn resp body (buildHeaders m.part resp st).headers with
      | false =>
        rw [runMatchers_fail_or hskip hm,
          if_neg (show ¬(false = true) from by simp)]
        have h2 := ih (buildHeaders m.part resp st) hbinv
        rw [h2.1, buildHeaders_emissions]
        exact ⟨rfl, h2.2⟩
      | true =>
        rw [runMatchers_pass hskip hm,
          if_pos (show Condition.ORCondition = Condition.ORCondition ∧ 0 = 0 from
            ⟨rfl, rfl⟩),
          if_pos (show true = true from rfl)]
        have h2 := ih
          { buildHeaders m.part resp st with
              emissions := (buildHeaders m.part resp st).emissions ++
                [Emission.matched m] } hbinv
        rw [h2.1]
        refine ⟨?_, h2.2⟩
        show (buildHeaders m.part resp st).emissions ++ [Emission.matched m] ++
            specOrEmissions url resp body rest (buildHeaders m.part resp st).headers =
          st.emissions ++
            (Emission.matched m ::
              specOrEmissions url resp body rest (buildHeaders m.part resp st).headers)
        rw [buildHeaders_emissions]
        simp
    · have hskip : m.target ≠ "" ∧ m.target ≠ url := by tauto
      rw [runMatchers_skip hskip, specOrEmissions_cons, if_neg happ]
      exact ih st hinv

/-- The extractor loop never writes output. -/
lemma runExtractors_emissions (resp : Response) (body : String) :
    ∀ (exs : List Extractor) (st : EvalState) (acc : List String),
      (runExtractors resp body exs st acc).1.emissions = st.emissions := by
  intro exs
  induction exs with
  | nil => intro st acc; rfl
  | cons e rest ih =>
    intro st acc
    unfold runExtractors
    rw [ih, buildHeaders_emissions]

/-- C1: with matcher condition AND, evaluating a response emits at most one
consolidated result and nothing else, and that emission happens exactly when
every applicable matcher — target filter unset or equal to the current URL —
returns true on (response, body, lazily built headers); a failing applicable
matcher leaves the response with no emission at all (`continue mainLoop`
moves on to the next compiled request). -/
theorem executeHTTP_and_emission_iff (url : String) (ms : List Matcher)
    (exs : List Extractor) (resp : Response) (body : String) :
    ((evalResponse url Condition.ANDCondition ms exs resp body).emissions = [] ∨
      ∃ r, (evalResponse url Condition.ANDCondition ms exs resp body).emissions =
        [Emission.final r]) ∧
    ((evalResponse url Condition.ANDCondition ms exs resp body).emissions ≠ [] ↔
      specAllApplicablePass url resp body ms "" = true) := by
  have h := runMatchers_AND_spec url exs.length resp body ms initState (Or.inl rfl)
  unfold evalResponse
  cases hr : runMatchers url Condition.ANDCondition exs.length resp body ms initState with
  | mk st b =>
    rw [hr] at h
    have he : st.emissions = [] := h.1
    cases b with
    | true =>
      have hp : specAllApplicablePass url resp body ms "" = false := by
        have h2 := h.2
        simp at h2
        exact h2
      simp [he, hp]
    | false =>
      have hp : specAllApplicablePass url resp body ms "" = true := by
        have h2 := h.2
        simp at h2
        exact h2
      cases hex : runExtractors resp body exs st [] with
      | mk st2 r =>
        have he2 : st2.emissions = [] := by
          have hx := runExtractors_emissions resp body exs st []
          rw [hex] at hx
          exact hx.trans he
        simp only [hex, or_true, if_true]
        refine ⟨Or.inr ⟨r, ?_⟩, ?_, fun _ => ?_⟩
        · show st2.emissions ++ [Emission.final r] = [Emission.final r]
          rw [he2]
          rfl
        · intro _
          exact hp
        · show st2.emissions ++ [Emission.final r] ≠ []
          rw [he2]
          simp

/-- C2: with matcher condition OR and no extractor configured, evaluating a
response produces exactly the spec-side emission list: one emission per
applicable matcher that returns true, each recording that matcher as the
cause, in declaration order — later matchers keep being checked after an
emission, and no consolidated result is written. -/
theorem executeHTTP_or_emits_every_passing_matcher (url : String)
    (ms : List Matcher) (resp : Response) (body : String) :
    (evalResponse url Condition.ORCondition ms [] resp body).emissions =
      specOrEmissions url resp body ms "" := by
  have h := runMatchers_OR_spec url resp body ms initState (Or.inl rfl)
  unfold evalResponse
  simp only [List.length_nil]
  cases hr : runMatchers url Condition.ORCondition 0 resp body ms initState with
  | mk st b =>
    rw [hr] at h
    have hb : b = false := h.2
    subst hb
    have h1 : st.emissions =
        initState.emissions ++ specOrEmissions url resp body ms initState.headers := h.1
    show st.emissions = specOrEmissions url resp body ms ""
    exact h1

/-- Appending a matcher-caused emission does not introduce a final one. -/
lemma hasFinal_append_matched (es : List Emission) (m : Matcher) :
    hasFinal (es ++ [Emission.matched m]) = hasFinal es := by
  simp [hasFinal, isFinal, List.any_append]

/-- The matcher loop never writes a consolidated (final) emission. -/
lemma runMatchers_no_final (url : String) (cond : Condition) (n : Nat)
    (resp : Response) (body : String) :
    ∀ (ms : List Matcher) (st : EvalState),
      hasFinal (runMatchers url cond n resp body ms st).1.emissions =
        hasFinal st.emissions := by
  intro ms
  induction ms with
  | nil => intro st; rfl
  | cons m rest ih =>
    intro st
    by_cases hskip : m.target ≠ "" ∧ m.target ≠ url
    · rw [runMatchers_skip hskip]
      exact ih st
    · cases hm : m.matchFn resp body (buildHeaders m.part resp st).headers with
      | false =>
        cases cond with
        | ANDCondition =>
          rw [runMatchers_fail_and hskip hm]
          show hasFinal (buildHeaders m.part resp st).emissions = hasFinal st.emissions
          rw [buildHeaders_emissions]
        | ORCondition =>
          rw [runMatchers_fail_or hskip hm, ih, buildHeaders_emissions]
      | true =>
        rw [runMatchers_pass hskip hm, ih]
        split_ifs
        · show hasFinal ((buildHeaders m.part resp st).emissions ++
              [Emission.matched m]) = hasFinal st.emissions
          rw [hasFinal_append_matched, buildHeaders_emissions]
        · rw [buildHeaders_emissions]

/-- C4 (amended): after matcher evaluation, `ExecuteHTTP` writes the
consolidated result if and only if the matcher loop did not AND-short-circuit
and either at least one extractor is configured — regardless of whether
extraction produced any output — or the matcher condition is AND. -/
theorem final_emission_iff_extractors_configured_or_and (url : String)
    (cond : Condition) (ms : List Matcher) (exs : List Extractor)
    (resp : Response) (body : String) :
    hasFinal (evalResponse url cond ms exs resp body).emissions = true ↔
      ((runMatchers url cond exs.length resp body ms initState).2 = false ∧
        (exs ≠ [] ∨ cond = Condition.ANDCondition)) := by
  unfold evalResponse
  cases hr : runMatchers url cond exs.length resp body ms initState with
  | mk st b =>
    have hnf : hasFinal st.emissions = false := by
      have hx := runMatchers_no_final url cond exs.length resp body ms initState
      rw [hr] at hx
      exact hx
    cases b with
    | true => simp [hnf]
    | false =>
      cases hex : runExtractors resp body exs st [] with
      | mk st2 r =>
        have he2 : hasFinal st2.emissions = false := by
          have hx := runExtractors_emissions resp body exs st []
          rw [hex] at hx
          rw [hx]
          exact hnf
        simp only [hex]
        by_cases hcond : exs.length > 0 ∨ cond = Condition.ANDCondition
        · rw [if_pos hcond]
          have hc2 : exs ≠ [] ∨ cond = Condition.ANDCondition := by
            rcases hcond with hc | hc
            · exact Or.inl (List.length_pos.mp hc)
            · exact Or.inr hc
          show hasFinal (st2.emissions ++ [Emission.final r]) = true ↔ _
          simp [hasFinal, isFinal, List.any_append, hc2]
        · rw [if_neg hcond]
          have hc2 : ¬(exs ≠ [] ∨ cond = Condition.ANDCondition) := by
            intro hc
            rcases hc with hc | hc
            · exact hcond (Or.inl (List.length_pos.mpr hc))
            · exact hcond (Or.inr hc)
          simp [he2, hc2]

/-- If every applicable matcher inspects only the body, the matcher loop
neither builds the header string nor changes it. -/
lemma runMatchers_bodyOnly (url : String) (cond : Condition) (n : Nat)
    (resp : Response) (body : String) :
    ∀ (ms : List Matcher) (st : EvalState),
      (∀ m ∈ ms, (m.target = "" ∨ m.target = url) → m.part = Part.body) →
      (runMatchers url cond n resp body ms st).1.headerCalls = st.headerCalls ∧
      (runMatchers url cond n resp body ms st).1.headers = st.headers := by
  intro ms
  induction ms with
  | nil => exact fun st _ => ⟨rfl, rfl⟩
  | cons m rest ih =>
    intro st h
    have htail : ∀ x ∈ rest, (x.target = "" ∨ x.target = url) → x.part = Part.body :=
      fun x hx => h x (List.mem_cons_of_mem m hx)
    by_cases hskip : m.target ≠ "" ∧ m.target ≠ url
    · rw [runMatchers_skip hskip]
      exact ih st htail
    · have happ : m.target = "" ∨ m.target = url := by tauto
      have hpart : m.part = Part.body := h m (List.mem_cons_self m rest) happ
      have hbst : buildHeaders m.part resp st = st := by
        rw [hpart]
        rfl
      cases hm : m.matchFn resp body (buildHeaders m.part resp st).headers with
      | false =>
        cases cond with
        | ANDCondition =>
          rw [runMatchers_fail_and hskip hm, hbst]
          exact ⟨rfl, rfl⟩
        | ORCondition =>
          rw [runMatchers_fail_or hskip hm, hbst]
          exact ih st htail
      | true =>
        rw [runMatchers_pass hskip hm, hbst]
        split_ifs
        · exact ih { st with emissions := st.emissions ++ [Emission.matched m] } htail
        · exact ih st htail

/-- If every extractor inspects only the body, the extractor loop neither
builds the header string nor changes it. -/
lemma runExtractors_bodyOnly (resp : Response) (body : String) :
    ∀ (exs : List Extractor) (st : EvalState) (acc : List String),
      (∀ e ∈ exs, e.part = Part.body) →
      (runExtractors resp body exs st acc).1.headerCalls = st.headerCalls := by
  intro exs
  induction exs with
  | nil => exact fun st acc _ => rfl
  | cons e rest ih =>
    intro st acc h
    have hpart : e.part = Part.body := h e (List.mem_cons_self e rest)
    have hbst : buildHeaders e.part resp st = st := by
      rw [hpart]
      rfl
    unfold runExtractors
    rw [hbst]
    exact ih st _ (fun x hx => h x (List.mem_cons_of_mem e hx))

/-- For a non-`all` part, the header-build step is either a no-op (memo hit
or body part) or, from an empty headers string, the single conversion. -/
lemma buildHeaders_noAll (p : Part) (resp : Response) (st : EvalState)
    (hp : p ≠ Part.all) :
    buildHeaders p resp st = st ∨
    (st.headers = "" ∧
      buildHeaders p resp st =
        { st with headers := headersToString resp,
                  headerCalls := st.headerCalls + 1 }) := by
  unfold buildHeaders
  split_ifs with hc
  · rcases hc with hc | hc
    · exact absurd hc hp
    · exact Or.inr ⟨hc.2, rfl⟩
  · exact Or.inl rfl

/-- When no applicable matcher requests the `all` part and the header text is
nonempty, the matcher loop makes at most one conversion: none if it leaves
the headers string unchanged, exactly one if it fills the empty string. -/
lemma runMatchers_memo (url : String) (cond : Condition) (n : Nat)
    (resp : Response) (body : String) (hH : headersToString resp ≠ "") :
    ∀ (ms : List Matcher) (st : EvalState),
      (∀ m ∈ ms, (m.target = "" ∨ m.target = url) → m.part ≠ Part.all) →
      st.headers = "" ∨ st.headers = headersToString resp →
      ((runMatchers url cond n resp body ms st).1.headers = st.headers ∧
        (runMatchers url cond n resp body ms st).1.headerCalls = st.headerCalls) ∨
      (st.headers = "" ∧
        (runMatchers url cond n resp body ms st).1.headers = headersToString resp ∧
        (runMatchers url cond n resp body ms st).1.headerCalls = st.headerCalls + 1) := by
  intro ms
  induction ms with
  | nil => exact fun st _ _ => Or.inl ⟨rfl, rfl⟩
  | cons m rest ih =>
    intro st h hinv
    have htail : ∀ x ∈ rest, (x.target = "" ∨ x.target = url) → x.part ≠ Part.all :=
      fun x hx => h x (List.mem_cons_of_mem m hx)
    by_cases hskip : m.target ≠ "" ∧ m.target ≠ url
    · rw [runMatchers_skip hskip]
      exact ih st htail hinv
    · have happ : m.target = "" ∨ m.target = url := by tauto
      have hnall : m.part ≠ Part.all := h m (List.mem_cons_self m rest) happ
      rcases buildHeaders_noAll m.part resp st hnall with hb | ⟨h0, hb⟩
      · -- build step is a no-op
        cases hm : m.matchFn resp body (buildHeaders m.part resp st).headers with
        | false =>
          cases cond with
          | ANDCondition =>
            rw [runMatchers_fail_and hskip hm, hb]
            exact Or.inl ⟨rfl, rfl⟩
          | ORCondition =>
            rw [runMatchers_fail_or hskip hm, hb]
            exact ih st htail hinv
        | true =>
          rw [runMatchers_pass hskip hm, hb]
          split_ifs
          · exact ih { st with emissions := st.emissions ++ [Emission.matched m] }
              htail hinv
          · exact ih st htail hinv
      · -- build step fills the empty headers string
        cases hm : m.matchFn resp body (buildHeaders m.part resp st).headers with
        | false =>
          cases cond with
          | ANDCondition =>
            rw [runMatchers_fail_and hskip hm, hb]
            exact Or.inr ⟨h0, rfl, rfl⟩
          | ORCondition =>
            rw [runMatchers_fail_or hskip hm, hb]
            rcases ih (EvalState.mk (headersToString resp) (st.headerCalls + 1)
                st.emissions) htail (Or.inr rfl) with ⟨hh, hc⟩ | ⟨hh, _, _⟩
            · exact Or.inr ⟨h0, hh, hc⟩
            · exact absurd hh hH
        | true =>
          rw [runMatchers_pass hskip hm, hb]
          split_ifs
          · rcases ih (EvalState.mk (headersToString resp) (st.headerCalls + 1)
                (st.emissions ++ [Emission.matched m])) htail
                (Or.inr rfl) with ⟨hh, hc⟩ | ⟨hh, _, _⟩
            · exact Or.inr ⟨h0, hh, hc⟩
            · exact absurd hh hH
          · rcases ih (EvalState.mk (headersToString resp) (st.headerCalls + 1)
                st.emissions) htail (Or.inr rfl) with ⟨hh, hc⟩ | ⟨hh, _, _⟩
            · exact Or.inr ⟨h0, hh, hc⟩
            · exact absurd hh hH

/-- The extractor-loop analogue of the matcher-loop memo lemma. -/
lemma runExtractors_memo (resp : Response) (body : String)
    (hH : headersToString resp ≠ "") :
    ∀ (exs : List Extractor) (st : EvalState) (acc : List String),
      (∀ e ∈ exs, e.part ≠ Part.all) →
      st.headers = "" ∨ st.headers = headersToString resp →
      ((runExtractors resp body exs st acc).1.headers = st.headers ∧
        (runExtractors resp body exs st acc).1.headerCalls = st.headerCalls) ∨
      (st.headers = "" ∧
        (runExtractors resp body exs st acc).1.headers = headersToString resp ∧
        (runExtractors resp body exs st acc).1.headerCalls = st.headerCalls + 1) := by
  intro exs
  induction exs with
  | nil => exact fun st acc _ _ => Or.inl ⟨rfl, rfl⟩
  | cons e rest ih =>
    intro st acc h hinv
    have htail : ∀ x ∈ rest, x.part ≠ Part.all :=
      fun x hx => h x (List.mem_cons_of_mem e hx)
    have hnall : e.part ≠ Part.all := h e (List.mem_cons_self e rest)
    unfold runExtractors
    rcases buildHeaders_noAll e.part resp st hnall with hb | ⟨h0, hb⟩
    · rw [hb]
      exact ih st _ htail hinv
    · rw [hb]
      rcases ih (EvalState.mk (headersToString resp) (st.headerCalls + 1)
          st.emissions) _ htail (Or.inr rfl) with ⟨hh, hc⟩ | ⟨hh, _, _⟩
      · exact Or.inr ⟨h0, hh, hc⟩
      · exact absurd hh hH

/-- C5 (amended): header conversion runs only on demand — zero conversions
when every applicable matcher and every extractor inspects only the body —
and the emptiness memo keeps it to at most one conversion per response as
long as no applicable matcher or extractor requests the `all` part (and the
header text is nonempty, so the memo can record it); an `all`-part request,
however, bypasses the memo and reconverts each time (see the
counterexample). -/
theorem headers_built_lazily (url : String) (cond : Condition)
    (ms : List Matcher) (exs : List Extractor) (resp : Response)
    (body : String) :
    ((∀ m ∈ ms, (m.target = "" ∨ m.target = url) → m.part = Part.body) ∧
      (∀ e ∈ exs, e.part = Part.body) →
      (evalResponse url cond ms exs resp body).headerCalls = 0) ∧
    (headersToString resp ≠ "" ∧
      (∀ m ∈ ms, (m.target = "" ∨ m.target = url) → m.part ≠ Part.all) ∧
      (∀ e ∈ exs, e.part ≠ Part.all) →
      (evalResponse url cond ms exs resp body).headerCalls ≤ 1) := by
  constructor
  · rintro ⟨hm, he⟩
    unfold evalResponse
    cases hr : runMatchers url cond exs.length resp body ms initState with
    | mk st b =>
      have h1 := runMatchers_bodyOnly url cond exs.length resp body ms initState hm
      rw [hr] at h1
      have hc1 : st.headerCalls = 0 := h1.1
      cases b with
      | true => exact hc1
      | false =>
        cases hex : runExtractors resp body exs st [] with
        | mk st2 r =>
          have h2 := runExtractors_bodyOnly resp body exs st [] he
          rw [hex] at h2
          have hc2 : st2.headerCalls = 0 := h2.trans hc1
          simp only [hex]
          split_ifs
          · exact hc2
          · exact hc2
  · rintro ⟨hH, hm, he⟩
    unfold evalResponse
    cases hr : runMatchers url cond exs.length resp body ms initState with
    | mk st b =>
      have h1 := runMatchers_memo url cond exs.length resp body hH ms initState
        hm (Or.inl rfl)
      rw [hr] at h1
      have hstlist : (st.headers = "" ∧ st.headerCalls = 0) ∨
          (st.headers = headersToString resp ∧ st.headerCalls = 1) := by
        rcases h1 with ⟨hh, hc⟩ | ⟨_, hh, hc⟩
        · exact Or.inl ⟨hh, hc⟩
        · exact Or.inr ⟨hh, hc⟩
      cases b with
      | true =>
        show st.headerCalls ≤ 1
        rcases hstlist with ⟨_, hc⟩ | ⟨_, hc⟩ <;> omega
      | false =>
        cases hex : runExtractors resp body exs st [] with
        | mk st2 r =>
          have hinv : st.headers = "" ∨ st.headers = headersToString resp := by
            rcases hstlist with ⟨hh, _⟩ | ⟨hh, _⟩
            · exact Or.inl hh
            · exact Or.inr hh
          have h2 := runExtractors_memo resp body hH exs st [] he hinv
          rw [hex] at h2
          have h2x : (st2.headers = st.headers ∧ st2.headerCalls = st.headerCalls) ∨
              (st.headers = "" ∧ st2.headers = headersToString resp ∧
                st2.headerCalls = st.headerCalls + 1) := h2
          have hle : st2.headerCalls ≤ 1 := by
            rcases hstlist with ⟨hh, hc⟩ | ⟨hh, hc⟩
            · rcases h2x with ⟨_, hc2⟩ | ⟨_, _, hc2⟩ <;> omega
            · rcases h2x with ⟨_, hc2⟩ | ⟨hh2, _, _⟩
              · omega
              · rw [hh] at hh2
                exact absurd hh2 hH
          simp only [hex]
          split_ifs
          · exact hle
          · exact hle

/-- Witness for C5 (amended) at a concrete input: one applicable body-part
matcher, no extractor, nonempty header text — zero conversions, hence also
at most one. -/
theorem headers_built_lazily_witness :
    (evalResponse "u" Condition.ANDCondition
      [{ type_ := "status", target := "", part := Part.body, size := [],
         status := [], matchFn := fun _ _ _ => true }] []
      { statusCode := 200, headerText := "X" } "b").headerCalls = 0 ∧
    (evalResponse "u" Condition.ANDCondition
      [{ type_ := "status", target := "", part := Part.body, size := [],
         status := [], matchFn := fun _ _ _ => true }] []
      { statusCode := 200, headerText := "X" } "b").headerCalls ≤ 1 :=
  ⟨(headers_built_lazily "u" Condition.ANDCondition
      [{ type_ := "status", target := "", part := Part.body, size := [],
         status := [], matchFn := fun _ _ _ => true }] []
      { statusCode := 200, headerText := "X" } "b").1
    ⟨fun m hm _ => by rw [List.mem_singleton.mp hm],
     fun e hign => absurd hign (List.not_mem_nil e)⟩,
   (headers_built_lazily "u" Condition.ANDCondition
      [{ type_ := "status", target := "", part := Part.body, size := [],
         status := [], matchFn := fun _ _ _ => true }] []
      { statusCode := 200, headerText := "X" } "b").2
    ⟨by decide,
     fun m hm _ => by rw [List.mem_singleton.mp hm]; decide,
     fun e hign => absurd hign (List.not_mem_nil e)⟩⟩

end Executor
